import Mathlib

/-!
Verification of the tlg-bs-helper Discord cogs against their specification.

The Python sources are shallowly embedded: Python `str` values are modelled
as `String` or `List Char`, Python `int` as `ℤ` (or `ℕ` where the source
value is a count), Python `float` backoff arithmetic as `ℚ` (all constants
involved are dyadic, so this is exact), Python `dict` as association lists
(`List (key × value)`, keys unique as in a dict) or as total functions when
only `.get` with a default is used, and Python `set` as `Finset`.
Fallible calls (HTTP fetches) are modelled as `Option`-returning functions,
`none` standing for a raised exception.
-/

namespace TLGBS

/-! ### Python string primitives
Whitespace is Python's full whitespace set; `upper()` is modelled on the
basic latin letters (the only ones the cogs' tags use). -/

/-- Python whitespace (the `Py_UNICODE_ISSPACE` set used by `str.strip()`
and `str.isspace()`): `\t \n \v \f \r`, `\x1c`-`\x1f`, space, NEL, NBSP,
Ogham space mark, the U+2000 block, line/paragraph separators, narrow
no-break space, medium mathematical space and ideographic space. -/
def pyIsSpace (c : Char) : Bool :=
  decide ((9 ≤ c.toNat ∧ c.toNat ≤ 13) ∨ (28 ≤ c.toNat ∧ c.toNat ≤ 32) ∨
    c.toNat = 133 ∨ c.toNat = 160 ∨ c.toNat = 5760 ∨
    (8192 ≤ c.toNat ∧ c.toNat ≤ 8202) ∨ c.toNat = 8232 ∨ c.toNat = 8233 ∨
    c.toNat = 8239 ∨ c.toNat = 8287 ∨ c.toNat = 12288)

/-- Python `str.strip()` with no argument: remove leading and trailing
Python whitespace. Modelled on `List Char`. -/
def pyStrip (s : List Char) : List Char :=
  ((s.dropWhile pyIsSpace).reverse.dropWhile pyIsSpace).reverse

/-- Python `str.lstrip("#")`: remove leading `'#'` characters. -/
def pyLstripHash (s : List Char) : List Char :=
  s.dropWhile (fun c => c = '#')

/-- Python `str.upper()` on the ASCII range (the only range tags use). -/
def pyUpper (s : List Char) : List Char :=
  s.map Char.toUpper

/-- Python `str.replace("O", "0")`. -/
def pyReplaceO0 (s : List Char) : List Char :=
  s.map (fun c => if c = 'O' then '0' else c)

/-- `normalize_tag` from `bs_players/players.py` (same code in
`bsPlayers/api.py`): `tag.strip().lstrip("#").upper().replace("O", "0")`. -/
def normalize_tag (s : List Char) : List Char :=
  pyReplaceO0 (pyUpper (pyLstripHash (pyStrip s)))

/-- Python `str.replace("#", "")`: drop every `'#'`.  Used on member tags in
`clubsync.py` line 165 (`m.get("tag", "").replace("#", "")`). -/
def replace_hash (s : String) : String :=
  ⟨s.data.filter (fun c => c ≠ '#')⟩

/-! ### ClubSync poller (`clubsync/clubsync.py`, `ClubSync._tick`) -/

/-- The list comprehension of `clubsync.py` line 165:
`[m.get("tag", "").replace("#", "") for m in items if m.get("tag")]`.
Each member item is modelled by its `"tag"` field: `none` when the key is
missing (`m.get` returns `None`, falsy), `some ""` also being falsy. -/
def tags_of_items (items : List (Option String)) : List String :=
  items.filterMap (fun mtag =>
    match mtag with
    | none => none
    | some t => if t = "" then none else some (replace_hash t))

/-- Result of one poller tick over the tracked clubs: the `updated_seen`
dict built during the loop (lines 157, 166) — which line 232 then stores
wholesale as the new `last_seen` — and the join/leave sets computed per
club (lines 169-172, Python `set` difference, hence `Finset`). -/
structure TickResult where
  updated_seen : List (String × List String)
  events : List (String × Finset String × Finset String)
  deriving DecidableEq

/-- The per-club loop of `ClubSync._tick` (lines 159-172 and 231-232).
`fetch ctag` is `api.get_club_members(ctag)` restricted to its
`"items"` member-tag fields, `none` modelling a raised exception (the
`except Exception: continue` on lines 162-163 skips the club).  For a
fetched club: `before = set(last_seen.get(ctag, []))`,
`after = set(tags_now)`, `joined = after - before`, `left = before - after`,
and `updated_seen[ctag] = tags_now`. -/
def tick (last_seen : List (String × List String))
    (fetch : String → Option (List (Option String))) :
    List String → TickResult
  | [] => ⟨[], []⟩
  | ctag :: rest =>
    match fetch ctag with
    | none => tick last_seen fetch rest
    | some items =>
      let tags_now := tags_of_items items
      let before := ((last_seen.lookup ctag).getD []).toFinset
      let after := tags_now.toFinset
      let r := tick last_seen fetch rest
      ⟨(ctag, tags_now) :: r.updated_seen,
       (ctag, after \ before, before \ after) :: r.events⟩

/-! ### Club eligibility filter (`brawlcommon/utils.py`, `eligible_clubs`) -/

/-- One output item of `eligible_clubs`: `(ctag, {**cfg, "_members": members})`.
Of the club config only `required_trophies` is read by the filter and the
sort key, so the record keeps exactly the consulted fields. -/
structure EClub where
  tag : String
  required_trophies : ℤ
  members : ℤ
  deriving Repr, DecidableEq

/-- The sort key of `utils.py` line 60:
`key=lambda x: (x[1]["_members"], -x[1].get("required_trophies", 0))` —
members ascending, required trophies descending as tie-breaker
(non-strict lexicographic order on the key tuple). -/
def clubLe (x y : EClub) : Prop :=
  x.members < y.members ∨
    (x.members = y.members ∧ y.required_trophies ≤ x.required_trophies)

instance : DecidableRel clubLe := fun x y => by
  unfold clubLe
  infer_instance

instance : IsTotal EClub clubLe where
  total x y := by
    unfold clubLe
    omega

instance : IsTrans EClub clubLe where
  trans x y z hxy hyz := by
    unfold clubLe at hxy hyz ⊢
    omega

/-- The filtering loop of `eligible_clubs` (lines 54-59): keep clubs with
`player_trophies >= required_trophies` and `members < 50`, in dict order. -/
def eligible_pre (clubs_cfg : List (String × ℤ)) (player_trophies : ℤ)
    (member_counts : String → ℤ) : List EClub :=
  clubs_cfg.filterMap (fun p =>
    if p.2 ≤ player_trophies ∧ member_counts p.1 < 50 then
      some ⟨p.1, p.2, member_counts p.1⟩
    else none)

/-- `eligible_clubs` from `brawlcommon/utils.py` lines 43-61.
`clubs_cfg` maps a club tag to its `required_trophies` (config default 0);
`member_counts.get(ctag, 0)` is modelled by a total function.  The final
`out.sort(key=...)` is Python's stable sort, i.e. insertion sort by the
non-strict key order `clubLe`. -/
def eligible_clubs (clubs_cfg : List (String × ℤ)) (player_trophies : ℤ)
    (member_counts : String → ℤ) : List EClub :=
  List.insertionSort clubLe (eligible_pre clubs_cfg player_trophies member_counts)

/-! ### Saved tags (`players/players.py`) -/

/-- The per-user config record of `players/players.py` line 20:
`{"tags": [], "default_index": 0, "ign_cache": "", "club_tag_cache": ""}`. -/
structure UserRecord where
  tags : List String
  default_index : ℤ
  ign_cache : String
  club_tag_cache : String
  deriving Repr, DecidableEq

/-- Outcome reported by `tags save` (which embed the three `ctx.send` exits). -/
inductive SaveOutcome where
  | alreadySaved
  | limitReached
  | saved
  deriving Repr, DecidableEq

/-- `Players.tags_save` (lines 52-66), state part: the API validation
happened before any state is touched, `norm` is the normalized tag.  The
same logic appears as `BSInfo.bs_tags_save` (`bsinfo/bsinfo.py` 304-323). -/
def tags_save (u : UserRecord) (norm : String) : UserRecord × SaveOutcome :=
  if norm ∈ u.tags then (u, SaveOutcome.alreadySaved)
  else if 3 ≤ u.tags.length then (u, SaveOutcome.limitReached)
  else ({ u with tags := u.tags ++ [norm] }, SaveOutcome.saved)

/-- Outcome reported by `bs verify`. -/
inductive VerifyOutcome where
  | limitReached
  | verified
  deriving Repr, DecidableEq

/-- `Players.bs_verify` (lines 141-156), state part: if the tag is new and
the list is full the command returns before touching anything; otherwise a
new tag is appended and `ign_cache` / `club_tag_cache` are refreshed from
the fetched player data. -/
def bs_verify (u : UserRecord) (norm ign club_tag : String) :
    UserRecord × VerifyOutcome :=
  if norm ∉ u.tags ∧ 3 ≤ u.tags.length then (u, VerifyOutcome.limitReached)
  else
    let u1 := if norm ∈ u.tags then u else { u with tags := u.tags ++ [norm] }
    ({ u1 with ign_cache := ign, club_tag_cache := club_tag },
     VerifyOutcome.verified)

/-- `Players.tags_move` (lines 93-112).  `index_from`/`index_to` are the
1-based command arguments; `f`/`t` the 0-based indices.  Out-of-range
indices are rejected without mutation (`Bool` result `false`).  Otherwise
`item = tags.pop(f)`, `tags.insert(t, item)`, and `default_index` is
normalized exactly as in the source. -/
def tags_move (u : UserRecord) (index_from index_to : ℤ) : UserRecord × Bool :=
  let f := index_from - 1
  let t := index_to - 1
  if ¬(0 ≤ f ∧ f < u.tags.length ∧ 0 ≤ t ∧ t < u.tags.length) then (u, false)
  else
    let fn := f.toNat
    let tn := t.toNat
    let item := u.tags.getD fn ""
    let tags1 := (u.tags.eraseIdx fn).insertIdx tn item
    let d := u.default_index
    let d1 :=
      if d = f then t
      else if f < d ∧ d ≤ t then d - 1
      else if t ≤ d ∧ d < f then d + 1
      else d
    ({ u with tags := tags1, default_index := d1 }, true)

/-! ### HTTP retry helper (`bs_players/players.py`, `BrawlStarsAPI._get`) -/

/-- One HTTP response as seen by the retry loop: status code, optional
`Retry-After` header (already parsed; `none` covers a missing or falsy
header) and the body (returned as data on 200, used as error text else). -/
structure Resp where
  status : ℕ
  retryAfter : Option ℚ
  body : String
  deriving Repr, DecidableEq

/-- Result of the GET helper: a successful body, a raised
`BSAPIError(status, text)`, or the server never answering conclusively
within the modelled response sequence. -/
inductive GetResult where
  | success (body : String)
  | failure (status : ℕ) (text : String)
  | outOfResponses
  deriving Repr, DecidableEq

/-- Python `min(a, b)` on two numbers, as used for the backoff cap. -/
def pymin (a b : ℚ) : ℚ :=
  if a ≤ b then a else b

/-- The `while True` retry loop of `BrawlStarsAPI._get`
(`bs_players/players.py` lines 75-96), cache disabled (`cache_ttl = 0`).
Each loop iteration consumes the next response of the sequence.
`attempts` is the counter before the `attempts += 1` at the top of the
iteration; `backoff` starts at `0.75`.  Returns the list of sleep delays
performed (in order) together with the outcome:
  * 200 → return body;
  * 429 → sleep `Retry-After` if present else `backoff`, then
    `backoff = min(backoff * 2, 8)` and retry (no attempt limit);
  * 5xx with `attempts < 4` (post-increment) → sleep `backoff`, then
    `backoff = min(backoff * 2, 6)` and retry;
  * anything else → raise `BSAPIError(status, text)`. -/
def getLoop : List Resp → ℕ → ℚ → List ℚ × GetResult
  | [], _, _ => ([], GetResult.outOfResponses)
  | r :: rest, attempts, backoff =>
    if r.status = 200 then ([], GetResult.success r.body)
    else if r.status = 429 then
      let delay := r.retryAfter.getD backoff
      let next := getLoop rest (attempts + 1) (pymin (backoff * 2) 8)
      (delay :: next.1, next.2)
    else if 500 ≤ r.status ∧ attempts + 1 < 4 then
      let next := getLoop rest (attempts + 1) (pymin (backoff * 2) 6)
      (backoff :: next.1, next.2)
    else ([], GetResult.failure r.status r.body)

/-- Initial backoff of `_get`: `backoff = 0.75` (line 76). -/
def initialBackoff : ℚ := 3 / 4

/-! ### Rankings limit clamp (`brawlcommon/brawl_api.py`) -/

/-- The `limit` query parameter sent by `get_rankings_players`,
`get_rankings_clubs` and `get_rankings_brawler`
(`brawlcommon/brawl_api.py` lines 60-67): `min(max(limit, 1), 200)`. -/
def rankings_limit_param (limit : ℤ) : ℤ :=
  min (max limit 1) 200

/-! ### Club board render flag (`clubboard/clubboard.py`, `ClubBoard._render`) -/

/-- The state a render touches: the per-guild `self._lock[guild.id]`
boolean flag, the messages posted or edited in the board channel, and the
stored board message id (guild config `message_id`). -/
structure BoardState where
  lockFlag : Bool
  posts : List String
  boardMessageId : Option ℕ
  deriving Repr, DecidableEq

/-- `ClubBoard._render` (lines 178-299) with its body abstracted: if the
per-guild flag is set the call returns immediately (line 180-181); else
the flag is set (line 182), the `try` body runs — returning the new state
and `some e` when it raises — and the `finally` (line 298-299) clears the
flag before the exception, if any, propagates. -/
def render (st : BoardState) (body : BoardState → BoardState × Option String) :
    BoardState × Option String :=
  if st.lockFlag then (st, none)
  else
    let r := body { st with lockFlag := true }
    ({ r.1 with lockFlag := false }, r.2)


/-! ## Helper lemmas: characters -/

theorem toNat_ofNat_valid {n : ℕ} (h : n < 55296) : (Char.ofNat n).toNat = n := by
  unfold Char.ofNat
  rw [dif_pos (Or.inl h)]
  rfl

theorem char_toNat_inj {a b : Char} (h : a.toNat = b.toNat) : a = b :=
  Char.ext (UInt32.ext h)

theorem char_eq_iff_toNat {a b : Char} : a = b ↔ a.toNat = b.toNat :=
  ⟨fun h => h ▸ rfl, char_toNat_inj⟩

theorem toUpper_toNat (c : Char) :
    c.toUpper.toNat
      = if 97 ≤ c.toNat ∧ c.toNat ≤ 122 then c.toNat - 32 else c.toNat := by
  unfold Char.toUpper
  split
  · next h =>
    rw [if_pos ⟨h.1, h.2⟩]
    exact toNat_ofNat_valid (by omega)
  · next h => rw [if_neg (by exact h)]

theorem toUpper_idem (c : Char) : c.toUpper.toUpper = c.toUpper := by
  apply char_toNat_inj
  rw [toUpper_toNat c.toUpper, toUpper_toNat c]
  split_ifs <;> omega

theorem pyIsSpace_toUpper (c : Char) :
    pyIsSpace c.toUpper = pyIsSpace c := by
  unfold pyIsSpace
  rw [decide_eq_decide, toUpper_toNat]
  split_ifs <;> omega

theorem toUpper_eq_hash_iff (c : Char) : (c.toUpper = '#') ↔ (c = '#') := by
  rw [char_eq_iff_toNat, char_eq_iff_toNat, toUpper_toNat]
  have h : ('#' : Char).toNat = 35 := rfl
  rw [h]
  split_ifs <;> omega

/-! ## Helper lemmas: lists -/

theorem dropWhile_eq_self_of_head {α : Type} (l : List α) (p : α → Bool)
    (h : ∀ c, l.head? = some c → p c = false) : l.dropWhile p = l := by
  cases l with
  | nil => rfl
  | cons a t =>
    rw [List.dropWhile_cons, h a rfl]
    simp

theorem head?_dropWhile {α : Type} (p : α → Bool) :
    ∀ (l : List α) (c : α), (l.dropWhile p).head? = some c → p c = false := by
  intro l
  induction l with
  | nil => intro c h; cases h
  | cons a t ih =>
    intro c h
    rw [List.dropWhile_cons] at h
    by_cases hp : p a
    · rw [if_pos hp] at h
      exact ih c h
    · rw [if_neg hp] at h
      cases h
      exact Bool.not_eq_true _ ▸ (by revert hp; cases p a <;> simp)

theorem dropWhile_eq_self_of_all {α : Type} (l : List α) (p : α → Bool)
    (h : ∀ c ∈ l, p c = false) : l.dropWhile p = l := by
  apply dropWhile_eq_self_of_head
  intro c hc
  apply h
  cases l with
  | nil => cases hc
  | cons a t =>
    simp only [List.head?_cons, Option.some.injEq] at hc
    subst hc
    exact List.mem_cons_self _ _

theorem pyStrip_eq_self (l : List Char)
    (h : ∀ c ∈ l, pyIsSpace c = false) : pyStrip l = l := by
  unfold pyStrip
  rw [dropWhile_eq_self_of_all l _ h]
  rw [dropWhile_eq_self_of_all l.reverse _ (fun c hc => h c (List.mem_reverse.mp hc))]
  exact List.reverse_reverse l

theorem mem_pyStrip {c : Char} {l : List Char} (h : c ∈ pyStrip l) : c ∈ l := by
  unfold pyStrip at h
  rw [List.mem_reverse] at h
  have h2 := (List.dropWhile_sublist (l := (l.dropWhile pyIsSpace).reverse)
    (p := pyIsSpace)).mem h
  rw [List.mem_reverse] at h2
  exact (List.dropWhile_sublist (l := l) (p := pyIsSpace)).mem h2

theorem normalize_tag_eq_map (s : List Char) :
    normalize_tag s
      = (pyLstripHash (pyStrip s)).map
          (fun c => if c.toUpper = 'O' then '0' else c.toUpper) := by
  unfold normalize_tag pyReplaceO0 pyUpper
  rw [List.map_map]
  rfl

theorem getElem?_insertIdx_le {α : Type} (a : α) :
    ∀ (n : ℕ) (l : List α) (k : ℕ), n ≤ l.length →
      (l.insertIdx n a)[k]? =
        if k < n then l[k]? else if k = n then some a else l[k - 1]? := by
  intro n
  induction n with
  | zero =>
    intro l k _
    rw [List.insertIdx_zero]
    cases k with
    | zero => simp
    | succ k => simp
  | succ n ih =>
    intro l k h
    cases l with
    | nil => exact absurd h (by simp)
    | cons b t =>
      rw [List.insertIdx_succ_cons]
      cases k with
      | zero => simp
      | succ k =>
        rw [List.getElem?_cons_succ, ih t k (by simpa using h)]
        by_cases h1 : k < n
        · rw [if_pos h1, if_pos (by omega), List.getElem?_cons_succ]
        · rw [if_neg h1]
          by_cases h2 : k = n
          · rw [if_pos h2, if_neg (by omega), if_pos (by omega)]
          · rw [if_neg h2, if_neg (by omega), if_neg (by omega)]
            have hk : 1 ≤ k := by omega
            rw [show k + 1 - 1 = (k - 1) + 1 by omega, List.getElem?_cons_succ]

theorem perm_eraseIdx_cons {α : Type} (l : List α) (n : ℕ) (h : n < l.length) :
    l.Perm (l[n] :: l.eraseIdx n) := by
  rw [List.eraseIdx_eq_take_drop_succ]
  conv_lhs => rw [← List.take_append_drop n l, ← List.getElem_cons_drop l n h]
  exact List.perm_middle

/-! ## Claim theorems -/

/-- C1: membership diff of the club poller.  For every previous snapshot
map and every club whose member list is fetched successfully during a
tick, the event recorded for that club carries joins = current set minus
previous set and leaves = previous set minus current set, and the snapshot
stored for that club by the tick is exactly the fetched current list. -/
theorem clubsync_membership_diff (last_seen : List (String × List String))
    (fetch : String → Option (List (Option String))) (tracked : List String)
    (ctag : String) (items : List (Option String))
    (hnd : tracked.Nodup) (hmem : ctag ∈ tracked) (hf : fetch ctag = some items) :
    (tick last_seen fetch tracked).updated_seen.lookup ctag =
        some (tags_of_items items) ∧
    (ctag,
      (tags_of_items items).toFinset \ ((last_seen.lookup ctag).getD []).toFinset,
      ((last_seen.lookup ctag).getD []).toFinset \ (tags_of_items items).toFinset)
      ∈ (tick last_seen fetch tracked).events := by
  induction tracked with
  | nil => cases hmem
  | cons a rest ih =>
    rcases List.mem_cons.mp hmem with heq | hmem2
    · subst heq
      simp only [tick, hf]
      constructor
      · simp [List.lookup]
      · exact List.mem_cons_self _ _
    · have hna : a ∉ rest := (List.nodup_cons.mp hnd).1
      have hne : (ctag == a) = false := by
        simp only [beq_eq_false_iff_ne, ne_eq]
        rintro rfl
        exact hna hmem2
      have ih2 := ih (List.nodup_cons.mp hnd).2 hmem2
      cases hfa : fetch a with
      | none => simpa [tick, hfa] using ih2
      | some items2 =>
        simp only [tick, hfa]
        refine ⟨?_, List.mem_cons_of_mem _ ih2.2⟩
        simpa [List.lookup, hne] using ih2.1

/-- Witness for C1 at the example of the spec: previous snapshot
`["A","B","C"]` for club `"X"`, fetched members `["B","C","D"]`; the tick
stores `["B","C","D"]` and records joins `{"D"}` and leaves `{"A"}`. -/
theorem clubsync_membership_diff_witness :
    ((tick [("X", ["A", "B", "C"])]
        (fun c => if c = "X" then some [some "B", some "C", some "D"] else none)
        ["X"]).updated_seen.lookup "X"
      = some (tags_of_items [some "B", some "C", some "D"]) ∧
    ("X",
      (tags_of_items [some "B", some "C", some "D"]).toFinset \
        ((([("X", ["A", "B", "C"])].lookup "X").getD []).toFinset),
      ((([("X", ["A", "B", "C"])].lookup "X").getD []).toFinset) \
        (tags_of_items [some "B", some "C", some "D"]).toFinset)
      ∈ (tick [("X", ["A", "B", "C"])]
          (fun c => if c = "X" then some [some "B", some "C", some "D"] else none)
          ["X"]).events) ∧
    (tags_of_items [some "B", some "C", some "D"]).toFinset \
        ((([("X", ["A", "B", "C"])].lookup "X").getD []).toFinset) = {"D"} ∧
    ((([("X", ["A", "B", "C"])].lookup "X").getD []).toFinset) \
        (tags_of_items [some "B", some "C", some "D"]).toFinset = {"A"} :=
  ⟨clubsync_membership_diff [("X", ["A", "B", "C"])]
      (fun c => if c = "X" then some [some "B", some "C", some "D"] else none)
      ["X"] "X" [some "B", some "C", some "D"]
      (by decide) (by decide) (by decide),
    by decide, by decide⟩

/-- C2 (amended): on a fetch failure the club is skipped — no join or
leave event is recorded for it that tick — but its stored snapshot entry
is NOT preserved: line 232 replaces `last_seen` wholesale with
`updated_seen`, which only contains the successfully fetched clubs, so the
failed club's entry is absent from the stored snapshot after the tick. -/
theorem clubsync_failed_fetch (last_seen : List (String × List String))
    (fetch : String → Option (List (Option String))) (tracked : List String)
    (ctag : String) (hf : fetch ctag = none) :
    (tick last_seen fetch tracked).updated_seen.lookup ctag = none ∧
    ∀ ev ∈ (tick last_seen fetch tracked).events, ev.1 ≠ ctag := by
  induction tracked with
  | nil => exact ⟨rfl, by simp [tick]⟩
  | cons a rest ih =>
    cases hfa : fetch a with
    | none => simpa [tick, hfa] using ih
    | some items =>
      have hne : (ctag == a) = false := by
        simp only [beq_eq_false_iff_ne, ne_eq]
        rintro rfl
        rw [hf] at hfa
        cases hfa
      simp only [tick, hfa]
      constructor
      · simpa [List.lookup, hne] using ih.1
      · intro ev hev
        rcases List.mem_cons.mp hev with heq | h2
        · subst heq
          simp only [ne_eq]
          intro hc
          rw [hc] at hfa
          rw [hf] at hfa
          cases hfa
        · exact ih.2 ev h2

/-- Witness for C2 (amended theorem) at a concrete input: club `"X"` has
snapshot `["A"]`, its fetch fails, and after the tick its entry is gone
and no event mentions it. -/
theorem clubsync_failed_fetch_witness :
    (tick [("X", ["A"])] (fun _ => none) ["X"]).updated_seen.lookup "X" = none ∧
    ∀ ev ∈ (tick [("X", ["A"])] (fun _ => none) ["X"]).events, ev.1 ≠ "X" :=
  clubsync_failed_fetch [("X", ["A"])] (fun _ => none) ["X"] "X" rfl

/-- Counterexample to C2 as stated: with stored snapshot `["A"]` for club
`"X"` and a failing fetch, the claim says the stored entry is left
unchanged by the tick (still `some ["A"]`); the code stores
`updated_seen`, which has no entry for `"X"` at all. -/
theorem clubsync_failed_fetch_counterexample :
    ¬ ((tick [("X", ["A"])] (fun _ => none) ["X"]).updated_seen.lookup "X"
        = some ["A"]) := by decide

/-- C3: club eligibility filter.  `eligible_clubs` returns exactly the
clubs with `player_trophies >= required_trophies` and member count
strictly below the capacity used there (50), each item carrying its member
count, and the result is sorted by member count ascending with
`required_trophies` descending as tie-breaker; it is a permutation of the
filtered club list. -/
theorem eligible_clubs_spec (clubs_cfg : List (String × ℤ)) (player_trophies : ℤ)
    (member_counts : String → ℤ) :
    List.Sorted clubLe (eligible_clubs clubs_cfg player_trophies member_counts) ∧
    (eligible_clubs clubs_cfg player_trophies member_counts).Perm
      (eligible_pre clubs_cfg player_trophies member_counts) ∧
    ∀ e : EClub, e ∈ eligible_clubs clubs_cfg player_trophies member_counts ↔
      ((e.tag, e.required_trophies) ∈ clubs_cfg ∧
       e.required_trophies ≤ player_trophies ∧
       member_counts e.tag < 50 ∧ e.members = member_counts e.tag) := by
  refine ⟨List.sorted_insertionSort _ _, List.perm_insertionSort _ _, ?_⟩
  intro e
  unfold eligible_clubs
  rw [List.mem_insertionSort]
  unfold eligible_pre
  rw [List.mem_filterMap]
  constructor
  · rintro ⟨p, hp, hsome⟩
    by_cases hc : p.2 ≤ player_trophies ∧ member_counts p.1 < 50
    · rw [if_pos hc] at hsome
      have he : e = ⟨p.1, p.2, member_counts p.1⟩ := (Option.some.inj hsome).symm
      subst he
      exact ⟨hp, hc.1, hc.2, rfl⟩
    · rw [if_neg hc] at hsome
      cases hsome
  · rintro ⟨hmem, h1, h2, h3⟩
    refine ⟨(e.tag, e.required_trophies), hmem, ?_⟩
    rw [if_pos ⟨h1, h2⟩]
    cases e
    simp_all

/-- C4 (amended): `normalize_tag "#O0o" = "000"` (uppercase, strip the
leading `#`, map letter O to digit 0), and `normalize_tag` is idempotent
for every string containing no Python-whitespace character.  (Idempotence
fails in general: `strip()` runs before `lstrip("#")`, so removing leading
`#` can expose whitespace that only a second application strips — see the
counterexample.) -/
theorem normalize_tag_idem (s : List Char)
    (hws : ∀ c ∈ s, pyIsSpace c = false) :
    normalize_tag (normalize_tag s) = normalize_tag s ∧
    normalize_tag ('#' :: 'O' :: '0' :: 'o' :: []) = ('0' :: '0' :: '0' :: []) := by
  refine ⟨?_, by decide⟩
  have hg_idem : ∀ c : Char,
      (if (if c.toUpper = 'O' then '0' else c.toUpper).toUpper = 'O' then '0'
       else (if c.toUpper = 'O' then '0' else c.toUpper).toUpper)
        = (if c.toUpper = 'O' then '0' else c.toUpper) := by
    intro c
    by_cases h : c.toUpper = 'O'
    · rw [if_pos h]
      decide
    · rw [if_neg h, toUpper_idem, if_neg h]
  have hsub : ∀ c ∈ pyLstripHash (pyStrip s), c ∈ s := by
    intro c hc
    exact mem_pyStrip ((List.dropWhile_sublist _).mem hc)
  have hws_n : ∀ c ∈ normalize_tag s, pyIsSpace c = false := by
    rw [normalize_tag_eq_map]
    intro c hc
    rcases List.mem_map.mp hc with ⟨d, hd, rfl⟩
    by_cases h : d.toUpper = 'O'
    · rw [if_pos h]
      decide
    · rw [if_neg h, pyIsSpace_toUpper]
      exact hws d (hsub d hd)
  have hstrip : pyStrip (normalize_tag s) = normalize_tag s :=
    pyStrip_eq_self _ hws_n
  have hlstrip : pyLstripHash (normalize_tag s) = normalize_tag s := by
    unfold pyLstripHash
    apply dropWhile_eq_self_of_head
    intro c hc
    rw [normalize_tag_eq_map, List.head?_map] at hc
    cases ht : (pyLstripHash (pyStrip s)).head? with
    | none => rw [ht] at hc; cases hc
    | some d =>
      rw [ht] at hc
      have hd : (decide (d = '#')) = false :=
        head?_dropWhile (fun c => decide (c = '#')) (pyStrip s) d ht
      have hd2 : d ≠ '#' := by simpa using hd
      cases hc
      simp only [decide_eq_false_iff_not]
      by_cases h : d.toUpper = 'O'
      · rw [if_pos h]
        decide
      · rw [if_neg h]
        intro hcontra
        exact hd2 (toUpper_eq_hash_iff d |>.mp hcontra)
  conv_lhs => rw [normalize_tag, hstrip, hlstrip]
  rw [normalize_tag_eq_map s]
  unfold pyReplaceO0 pyUpper
  rw [List.map_map, List.map_map]
  apply List.map_congr_left
  intro c _
  exact hg_idem c

/-- Witness for C4 (amended theorem) at the whitespace-free string
`"#aO"`: normalizing twice equals normalizing once, and the `"#O0o"`
example evaluates to `"000"`. -/
theorem normalize_tag_idem_witness :
    normalize_tag (normalize_tag ('#' :: 'a' :: 'O' :: []))
      = normalize_tag ('#' :: 'a' :: 'O' :: []) ∧
    normalize_tag ('#' :: 'O' :: '0' :: 'o' :: []) = ('0' :: '0' :: '0' :: []) :=
  normalize_tag_idem ('#' :: 'a' :: 'O' :: []) (by decide)

/-- Counterexample to C4 as stated: `normalize_tag` is not idempotent for
every string.  For `"# A"` one application yields `" A"` (the `strip`
already ran when `lstrip("#")` exposes the space), while a second
application yields `"A"`. -/
theorem normalize_tag_not_idempotent :
    ¬ (normalize_tag (normalize_tag ('#' :: ' ' :: 'A' :: []))
        = normalize_tag ('#' :: ' ' :: 'A' :: [])) := by decide

/-- C5: saved-tag limit with atomic rejection.  Starting from a record
with at most 3 saved tags, `tags save` and `bs verify` leave at most 3
saved tags; and when exactly 3 tags are stored, a save returns the record
unchanged with a non-saved outcome, and a verify of a new tag returns the
record completely unchanged (caches included) with the limit outcome. -/
theorem saved_tag_limit (u : UserRecord) (norm ign club_tag : String)
    (h3 : u.tags.length ≤ 3) :
    (tags_save u norm).1.tags.length ≤ 3 ∧
    (bs_verify u norm ign club_tag).1.tags.length ≤ 3 ∧
    (u.tags.length = 3 →
      (tags_save u norm).1 = u ∧ (tags_save u norm).2 ≠ SaveOutcome.saved ∧
      (norm ∉ u.tags →
        bs_verify u norm ign club_tag = (u, VerifyOutcome.limitReached))) := by
  refine ⟨?_, ?_, ?_⟩
  · unfold tags_save
    split_ifs with h1 h2
    · exact h3
    · exact h3
    · simp only [List.length_append, List.length_singleton]
      omega
  · unfold bs_verify
    split_ifs with h1 h2
    · exact h3
    · exact h3
    · simp only [List.length_append, List.length_singleton]
      push_neg at h1
      rcases Classical.em (norm ∈ u.tags) with hm | hm
      · exact absurd hm h2
      · have := h1 hm
        omega
  · intro hlen
    refine ⟨?_, ?_, ?_⟩
    · unfold tags_save
      split_ifs with h1 h2
      · rfl
      · rfl
      · omega
    · unfold tags_save
      split_ifs with h1 h2
      · simp
      · simp
      · omega
    · intro hnm
      unfold bs_verify
      rw [if_pos ⟨hnm, by omega⟩]

/-- Witness for C5 at a full record: three saved tags, saving or verifying
a fourth tag `"D"` is rejected without mutation. -/
theorem saved_tag_limit_witness :
    (tags_save ⟨["A", "B", "C"], 0, "", ""⟩ "D").1.tags.length ≤ 3 ∧
    (bs_verify ⟨["A", "B", "C"], 0, "", ""⟩ "D" "IGN" "CT").1.tags.length ≤ 3 ∧
    ((["A", "B", "C"] : List String).length = 3 →
      (tags_save ⟨["A", "B", "C"], 0, "", ""⟩ "D").1 = ⟨["A", "B", "C"], 0, "", ""⟩ ∧
      (tags_save ⟨["A", "B", "C"], 0, "", ""⟩ "D").2 ≠ SaveOutcome.saved ∧
      ("D" ∉ (["A", "B", "C"] : List String) →
        bs_verify ⟨["A", "B", "C"], 0, "", ""⟩ "D" "IGN" "CT"
          = (⟨["A", "B", "C"], 0, "", ""⟩, VerifyOutcome.limitReached))) :=
  saved_tag_limit ⟨["A", "B", "C"], 0, "", ""⟩ "D" "IGN" "CT" (by decide)

/-- C6: HTTP retry behaviour on the sequence `[429 (Retry-After = 1),
500, 200]` starting from the initial backoff 0.75: the helper sleeps the
`Retry-After` value 1 after the 429, sleeps the doubled-and-capped backoff
1.5 after the 500, and then returns the 200 response body exactly once —
two delays, one successful return. -/
theorem http_retry_sequence :
    getLoop [⟨429, some 1, "rate limited"⟩, ⟨500, none, "server error"⟩,
             ⟨200, none, "payload"⟩] 0 initialBackoff
      = ([1, 3 / 2], GetResult.success "payload") := by
  simp only [getLoop, pymin, initialBackoff]
  norm_num

/-- C7: upstream API errors are surfaced.  Whenever the retry loop meets a
response whose status is not 200, not 429 and not a retryable 5xx (5xx
counts as retryable only while the post-increment attempt counter is below
4), it raises `BSAPIError` carrying exactly that response's status and
body text, performs no further delay and returns no value. -/
theorem bsapi_error_surfaced (r : Resp) (rest : List Resp)
    (attempts : ℕ) (backoff : ℚ)
    (h200 : r.status ≠ 200) (h429 : r.status ≠ 429)
    (h5xx : ¬(500 ≤ r.status ∧ attempts + 1 < 4)) :
    getLoop (r :: rest) attempts backoff
      = ([], GetResult.failure r.status r.body) := by
  unfold getLoop
  rw [if_neg h200, if_neg h429, if_neg h5xx]

/-- Witness for C7 at a concrete 404 response: the loop immediately raises
`BSAPIError(404, "not found")`. -/
theorem bsapi_error_surfaced_witness :
    getLoop [⟨404, none, "not found"⟩] 0 initialBackoff
      = ([], GetResult.failure 404 "not found") :=
  bsapi_error_surfaced ⟨404, none, "not found"⟩ [] 0 initialBackoff
    (by decide) (by decide) (by decide)

/-- C8: club-board render mutual exclusion.  A `_render` call made while
the per-guild flag is set returns immediately with the whole state (posted
messages included) unchanged and no exception; otherwise the body runs on
a state whose flag is set (and, as the body never touches the flag, the
flag stays set for the body's whole duration), and the `finally` clears
the flag whether the body returned normally or raised. -/
theorem clubboard_render_mutex (st : BoardState)
    (body : BoardState → BoardState × Option String)
    (hbody : ∀ s, (body s).1.lockFlag = s.lockFlag) :
    (st.lockFlag = true → render st body = (st, none)) ∧
    (st.lockFlag = false →
      render st body =
        ({ (body { st with lockFlag := true }).1 with lockFlag := false },
         (body { st with lockFlag := true }).2) ∧
      (body { st with lockFlag := true }).1.lockFlag = true ∧
      (render st body).1.lockFlag = false) := by
  constructor
  · intro h
    unfold render
    rw [if_pos h]
  · intro h
    refine ⟨?_, ?_, ?_⟩
    · unfold render
      rw [if_neg (by rw [h]; exact Bool.false_ne_true)]
    · rw [hbody]
    · unfold render
      rw [if_neg (by rw [h]; exact Bool.false_ne_true)]

/-- Witness for C8 with a body that posts one message: a call under a set
flag changes nothing, and a call under a clear flag ends with the flag
clear. -/
theorem clubboard_render_mutex_witness :
    (render ⟨true, [], none⟩
        (fun s => ({ s with posts := "board" :: s.posts }, none))
      = (⟨true, [], none⟩, none)) ∧
    (render ⟨false, [], none⟩
        (fun s => ({ s with posts := "board" :: s.posts }, none))).1.lockFlag
      = false := by
  constructor
  · exact (clubboard_render_mutex ⟨true, [], none⟩
      (fun s => ({ s with posts := "board" :: s.posts }, none)) (fun _ => rfl)).1 rfl
  · exact (((clubboard_render_mutex ⟨false, [], none⟩
      (fun s => ({ s with posts := "board" :: s.posts }, none)) (fun _ => rfl)).2
        rfl).2).2

/-- C9: `tags move` with both 1-based indices in range succeeds, the
resulting list is a permutation of the old one with the moved tag now at
the target index, and the tag the default index pointed at before the move
is exactly the tag the adjusted default index points at after it. -/
theorem tags_move_spec (u : UserRecord) (index_from index_to : ℤ)
    (hf : 0 ≤ index_from - 1 ∧ index_from - 1 < u.tags.length)
    (ht : 0 ≤ index_to - 1 ∧ index_to - 1 < u.tags.length)
    (hd : 0 ≤ u.default_index ∧ u.default_index < u.tags.length) :
    (tags_move u index_from index_to).2 = true ∧
    ((tags_move u index_from index_to).1.tags).Perm u.tags ∧
    ((tags_move u index_from index_to).1.tags)[(index_to - 1).toNat]? =
      u.tags[(index_from - 1).toNat]? ∧
    ((tags_move u index_from index_to).1.tags)[
        ((tags_move u index_from index_to).1.default_index).toNat]? =
      u.tags[u.default_index.toNat]? := by
  have hcond : (0 ≤ index_from - 1 ∧ index_from - 1 < (u.tags.length : ℤ) ∧
      0 ≤ index_to - 1 ∧ index_to - 1 < (u.tags.length : ℤ)) :=
    ⟨hf.1, hf.2, ht.1, ht.2⟩
  simp only [tags_move, if_neg (not_not_intro hcond)]
  set F := (index_from - 1).toNat with hFdef
  set T := (index_to - 1).toNat with hTdef
  set D := u.default_index.toNat with hDdef
  have hF : F < u.tags.length := by omega
  have hT : T < u.tags.length := by omega
  have hDlt : D < u.tags.length := by omega
  have hitem : u.tags.getD F "" = u.tags[F] := by
    rw [List.getD_eq_getElem?_getD, List.getElem?_eq_getElem hF]
    rfl
  have hlen_erase : (u.tags.eraseIdx F).length = u.tags.length - 1 := by
    rw [List.length_eraseIdx, if_pos hF]
  have hTle : T ≤ (u.tags.eraseIdx F).length := by omega
  refine ⟨trivial, ?_, ?_, ?_⟩
  · rw [hitem]
    exact (List.perm_insertIdx _ _ hTle).trans (perm_eraseIdx_cons u.tags F hF).symm
  · rw [getElem?_insertIdx_le _ _ _ _ hTle, if_neg (lt_irrefl T), if_pos rfl, hitem,
      List.getElem?_eq_getElem hF]
  · by_cases h1 : u.default_index = index_from - 1
    · rw [if_pos h1]
      have hDF : D = F := by omega
      rw [getElem?_insertIdx_le _ _ _ _ hTle, if_neg (lt_irrefl T), if_pos rfl, hitem,
        hDF, List.getElem?_eq_getElem hF]
    · rw [if_neg h1]
      by_cases h2 : index_from - 1 < u.default_index ∧ u.default_index ≤ index_to - 1
      · rw [if_pos h2]
        have hval : (u.default_index - 1).toNat = D - 1 := by omega
        rw [hval]
        have hcase : D - 1 < T := by omega
        rw [getElem?_insertIdx_le _ _ _ _ hTle, if_pos hcase,
          List.getElem?_eraseIdx_of_ge _ _ _ (by omega)]
        congr 1
        omega
      · rw [if_neg h2]
        by_cases h3 : index_to - 1 ≤ u.default_index ∧ u.default_index < index_from - 1
        · rw [if_pos h3]
          have hval : (u.default_index + 1).toNat = D + 1 := by omega
          rw [hval]
          rw [getElem?_insertIdx_le _ _ _ _ hTle, if_neg (by omega), if_neg (by omega)]
          rw [show D + 1 - 1 = D by omega, List.getElem?_eraseIdx_of_lt _ _ _ (by omega)]
        · rw [if_neg h3]
          by_cases h4 : u.default_index < index_from - 1
          · have hDT : D < T := by omega
            rw [getElem?_insertIdx_le _ _ _ _ hTle, if_pos hDT,
              List.getElem?_eraseIdx_of_lt _ _ _ (by omega)]
          · have hgt : index_from - 1 < u.default_index := by omega
            have hgtT : T < D := by omega
            rw [getElem?_insertIdx_le _ _ _ _ hTle, if_neg (by omega), if_neg (by omega),
              List.getElem?_eraseIdx_of_ge _ _ _ (by omega)]
            congr 1
            omega

/-- Witness for C9: moving tag 1 to position 3 in `["A","B","C"]` with
default index 0 succeeds, permutes the list, places `"A"` at index 2, and
the default still selects `"A"`. -/
theorem tags_move_spec_witness :
    (tags_move ⟨["A", "B", "C"], 0, "", ""⟩ 1 3).2 = true ∧
    ((tags_move ⟨["A", "B", "C"], 0, "", ""⟩ 1 3).1.tags).Perm ["A", "B", "C"] ∧
    ((tags_move ⟨["A", "B", "C"], 0, "", ""⟩ 1 3).1.tags)[((3 : ℤ) - 1).toNat]? =
      (["A", "B", "C"] : List String)[((1 : ℤ) - 1).toNat]? ∧
    ((tags_move ⟨["A", "B", "C"], 0, "", ""⟩ 1 3).1.tags)[
        ((tags_move ⟨["A", "B", "C"], 0, "", ""⟩ 1 3).1.default_index).toNat]? =
      (["A", "B", "C"] : List String)[((0 : ℤ)).toNat]? :=
  tags_move_spec ⟨["A", "B", "C"], 0, "", ""⟩ 1 3
    (by constructor <;> norm_num) (by constructor <;> norm_num)
    (by constructor <;> norm_num)

/-- C10: rankings limit clamping.  The `limit` query parameter sent by the
three rankings endpoints equals `min(max(limit, 1), 200)` and therefore
always lies in the closed interval `[1, 200]`, whatever integer the caller
supplied. -/
theorem rankings_limit_clamped (limit : ℤ) :
    1 ≤ rankings_limit_param limit ∧ rankings_limit_param limit ≤ 200 ∧
    rankings_limit_param limit = min (max limit 1) 200 := by
  unfold rankings_limit_param
  omega

end TLGBS
